import Mathlib

/-!
# Transaction-confirmation race coordinator: a shallow embedding

This file embeds the transaction-confirmation core of the repository
(`raceStrategies`, the two lifetime-specific waiters and the two default
confirmer factories) in Lean 4 and proves the specification's claims about
it.

Modelling choices for the asynchronous parts:

* A promise is modelled by its observable settlement behaviour: `none` when
  it stays pending forever, `some (t, s)` when it settles at (event-loop)
  time `t` with settlement `s` (a resolution value or a rejection error).
* `Promise.race` over such behaviours picks the settlement with the least
  time; on a tie the promise that appears earlier in the array wins, which
  matches the event-loop semantics (same-tick settlements are observed in
  array order by `Promise.race`).
* An `AbortSignal` is modelled by whether it is already aborted when
  `raceStrategies` is entered, and otherwise by the time at which it fires
  during the call (`none` when it never fires).
* The internally owned `AbortController` of `raceStrategies` fires at the
  earliest of: the caller's signal firing (forwarded by `handleAbort`) and
  the `finally` block running when the awaited race settles.  Only the
  caller-driven firing can be observed by the racing promises (the
  `finally` firing happens strictly after the race has settled), so the
  signal handed to the factories carries the caller's firing time.
* Which factories were invoked, and with which arguments, is recorded in an
  invocation log, so that claims of the form "no signal factory is ever
  invoked" are statable.
-/

/-- A JavaScript value carried by a resolved promise (`unknown` in the
source; the concrete factories all resolve with `undefined`). -/
inductive JsValue where
  | undef : JsValue
  | str : String → JsValue
  | num : Nat → JsValue
deriving DecidableEq, Repr

/-- The errors a promise in this core can reject with. -/
inductive JsError where
  /-- A `DOMException` with name `AbortError`, as produced by
  `AbortSignal.throwIfAborted` and by factories rejecting on cancellation. -/
  | abortError : JsError
  /-- A `TypeError`, as thrown by reading a property of `undefined`. -/
  | typeError : JsError
  /-- An invalidation error from a lifetime-specific strategy, carrying
  context about the expected and observed values. -/
  | invalidated : String → String → JsError
  /-- Any other error (e.g. a transport failure inside a factory). -/
  | other : String → JsError
deriving DecidableEq, Repr

/-- A settlement of a promise: a resolution value or a rejection error. -/
inductive Settlement where
  | resolved : JsValue → Settlement
  | rejected : JsError → Settlement
deriving DecidableEq, Repr

/-- The observable behaviour of a promise: `none` when it pends forever,
`some (t, s)` when it settles at time `t` with settlement `s`. -/
abbrev PromiseB := Option (Nat × Settlement)

/-- An `AbortSignal` as observed by one call: whether it is already aborted
at entry, and otherwise the time at which it fires during the call
(`none` when it never fires). -/
structure AbortSignal where
  aborted : Bool
  firesAt : Option Nat
deriving DecidableEq, Repr

/-- A commitment level (ordered durability guarantees). -/
inductive Commitment where
  | processed : Commitment
  | confirmed : Commitment
  | finalized : Commitment
deriving DecidableEq, Repr

/-- `IAccountMeta` from `@solana/instructions`: the part this core reads. -/
structure IAccountMeta where
  address : String
deriving DecidableEq, Repr

/-- `IInstruction`: program address plus ordered account metas. -/
structure IInstruction where
  programAddress : String
  accounts : List IAccountMeta
deriving DecidableEq, Repr

/-- The lifetime constraint of an `IDurableNonceTransaction`. -/
structure NonceLifetimeConstraint where
  nonce : String
deriving DecidableEq, Repr

/-- The lifetime constraint of an `ITransactionWithBlockhashLifetime`. -/
structure BlockhashLifetimeConstraint where
  blockhash : String
  lastValidBlockHeight : Nat
deriving DecidableEq, Repr

/-- A transaction with fee payer, attached signatures, instructions and a
durable-nonce lifetime constraint
(`ITransactionWithFeePayer & ITransactionWithSignatures & IDurableNonceTransaction`). -/
structure DurableNonceTransaction where
  feePayer : String
  signatures : List String
  instructions : List IInstruction
  lifetimeConstraint : NonceLifetimeConstraint
deriving DecidableEq, Repr

/-- A transaction with fee payer, attached signatures, instructions and a
blockhash lifetime constraint
(`ITransactionWithFeePayer & ITransactionWithSignatures & ITransactionWithBlockhashLifetime`). -/
structure BlockhashLifetimeTransaction where
  feePayer : String
  signatures : List String
  instructions : List IInstruction
  lifetimeConstraint : BlockhashLifetimeConstraint
deriving DecidableEq, Repr

/-- Structural-typing bound `ITransactionWithSignatures`: any transaction
type exposing its attached signatures. -/
class ITransactionWithSignatures (τ : Type) where
  signatures : τ → List String

instance : ITransactionWithSignatures DurableNonceTransaction :=
  ⟨DurableNonceTransaction.signatures⟩

instance : ITransactionWithSignatures BlockhashLifetimeTransaction :=
  ⟨BlockhashLifetimeTransaction.signatures⟩

/-- Modelled from the spec: `getSignatureFromTransaction` is imported from
the external `@solana/transactions` package (not under `src/`).  Per §3 of
the spec it is "a deterministic value derived from the transaction's primary
signature"; we model it as returning the first attached signature. -/
def getSignatureFromTransaction [ITransactionWithSignatures τ] (tx : τ) : String :=
  (ITransactionWithSignatures.signatures tx).headD ""

/-- Argument record of the recent-signature-confirmation factory. -/
structure RecentSignatureConfirmationPromiseConfig where
  abortSignal : AbortSignal
  commitment : Commitment
  signature : String
deriving DecidableEq, Repr

/-- The recent-signature-confirmation factory
(`createRecentSignatureConfirmationPromiseFactory` instance): an external
collaborator, modelled by its observable promise behaviour as a function of
its arguments (the abort signal it receives included). -/
abbrev SigFactory := RecentSignatureConfirmationPromiseConfig → PromiseB

/-- Argument record of the nonce-invalidation factory. -/
structure NonceInvalidationPromiseConfig where
  abortSignal : AbortSignal
  commitment : Commitment
  currentNonceValue : String
  nonceAccountAddress : String
deriving DecidableEq, Repr

/-- The nonce-invalidation factory (`createNonceInvalidationPromiseFactory`
instance), modelled by its observable promise behaviour. -/
abbrev NonceFactory := NonceInvalidationPromiseConfig → PromiseB

/-- Argument record of the block-height-exceedence factory. -/
structure BlockHeightExceedencePromiseConfig where
  abortSignal : AbortSignal
  lastValidBlockHeight : Nat
deriving DecidableEq, Repr

/-- The block-height-exceedence factory
(`createBlockHeightExceedencePromiseFactory` instance), modelled by its
observable promise behaviour. -/
abbrev BlockheightFactory := BlockHeightExceedencePromiseConfig → PromiseB

/-- One logged factory invocation, with the exact argument record passed. -/
inductive FactoryInvocation where
  | sig : RecentSignatureConfirmationPromiseConfig → FactoryInvocation
  | nonce : NonceInvalidationPromiseConfig → FactoryInvocation
  | blockheight : BlockHeightExceedencePromiseConfig → FactoryInvocation
deriving DecidableEq, Repr

/-- `BaseConfig`, with the row-polymorphic extension
(`TConfig extends BaseConfig`) of the source rendered as an extra field of
type `ε` (the strategy-specific factory of each concrete config type). -/
structure BaseConfig (τ : Type) (ε : Type) where
  abortSignal : AbortSignal
  commitment : Commitment
  getRecentSignatureConfirmationPromise : SigFactory
  transaction : τ
  extra : ε

/-- `WaitForDurableNonceTransactionConfirmationConfig`: the base config
extended with `getNonceInvalidationPromise`. -/
abbrev WaitForDurableNonceTransactionConfirmationConfig :=
  BaseConfig DurableNonceTransaction NonceFactory

/-- Field accessor named as in the source config. -/
def WaitForDurableNonceTransactionConfirmationConfig.getNonceInvalidationPromise
    (config : WaitForDurableNonceTransactionConfirmationConfig) : NonceFactory :=
  config.extra

/-- `WaitForRecentTransactionWithBlockhashLifetimeConfirmationConfig`: the
base config extended with `getBlockHeightExceedencePromise`. -/
abbrev WaitForRecentTransactionWithBlockhashLifetimeConfirmationConfig :=
  BaseConfig BlockhashLifetimeTransaction BlockheightFactory

/-- Field accessor named as in the source config. -/
def WaitForRecentTransactionWithBlockhashLifetimeConfirmationConfig.getBlockHeightExceedencePromise
    (config : WaitForRecentTransactionWithBlockhashLifetimeConfirmationConfig) :
    BlockheightFactory :=
  config.extra

/-- The state of the internally owned `AbortController`'s signal as the
racing promises can observe it: never pre-aborted, and firing when the
caller's signal fires (forwarded by `handleAbort`).  The `finally`-block
firing happens strictly after the race has settled, so it is not observable
by the racing promises and is accounted for separately in the result. -/
def internalSignalDuringRace (callerAbortSignal : AbortSignal) : AbortSignal :=
  { aborted := false, firesAt := callerAbortSignal.firesAt }

/-- The time at which the internally owned signal ends up fired on a run
whose race settles at `settleAt`: the earliest of the caller's forwarded
firing and the `finally` block. -/
def internalFireTime (callerFiresAt : Option Nat) (settleAt : Nat) : Nat :=
  match callerFiresAt with
  | none => settleAt
  | some c => min c settleAt

/-- Race of two settlement behaviours: least settlement time wins; on a tie
the first argument wins. -/
def raceFirst (p q : PromiseB) : PromiseB :=
  match p, q with
  | none, w => w
  | some ts, none => some ts
  | some ts, some ts' => if ts.1 ≤ ts'.1 then some ts else some ts'

/-- `Promise.race` over settlement behaviours: least settlement time wins;
on a tie the earlier element of the array wins. -/
def raceWinner : List PromiseB → PromiseB
  | [] => none
  | p :: rest => raceFirst p (raceWinner rest)

/-- The observable outcome of one `raceStrategies` call. -/
structure RaceResult where
  /-- The settlement the caller observes; `none` when the awaited race never
  settles (the call never returns). -/
  result : Option Settlement
  /-- Factory invocations, in program order, with their argument records. -/
  invocations : List FactoryInvocation
  /-- The time at which the internally owned signal fired, if it did. -/
  internalAbortedAt : Option Nat
  /-- Whether `handleAbort` was registered on the caller's signal. -/
  listenerAdded : Bool
deriving Repr

/-- The `handleAbort` listener is registered with
`{ signal: abortController.signal }`, so it is detached from the caller's
signal exactly when the internal signal fires. -/
def RaceResult.callerListenerRemains (r : RaceResult) : Bool :=
  r.listenerAdded && !r.internalAbortedAt.isSome

/-- The `getSpecificStrategiesForRace` callback: from the (rewritten)
config, either a synchronous throw, or the logged invocations together with
the strategy-specific promises. -/
abbrev GetSpecific (τ ε : Type) :=
  BaseConfig τ ε → Except JsError (List FactoryInvocation × List PromiseB)

/-- The argument record `raceStrategies` passes to
`getRecentSignatureConfirmationPromise`. -/
def sigPromiseConfig [ITransactionWithSignatures τ] (config : BaseConfig τ ε) :
    RecentSignatureConfirmationPromiseConfig :=
  { abortSignal := internalSignalDuringRace config.abortSignal,
    commitment := config.commitment,
    signature := getSignatureFromTransaction config.transaction }

/-- The full racing set: the generic signature-confirmation promise first,
then every strategy-specific promise. -/
def racingPromises [ITransactionWithSignatures τ] (config : BaseConfig τ ε)
    (specificStrategies : List PromiseB) : List PromiseB :=
  config.getRecentSignatureConfirmationPromise (sigPromiseConfig config) :: specificStrategies

/-- `raceStrategies`, the race coordinator:

1. `callerAbortSignal.throwIfAborted()` — reject with an `AbortError`
   before any controller, listener or factory exists;
2. derive the signature once;
3. create the internal `AbortController`, register `handleAbort` on the
   caller's signal with `{ signal: abortController.signal }`;
4. call `getSpecificStrategiesForRace` on the config with `abortSignal`
   replaced by the internal signal — a synchronous throw skips the race
   (no factory invoked) but still runs the `finally` block;
5. race the generic signature-confirmation promise against the specific
   strategies; 6./7. the `finally` block fires the internal controller
   (idempotent: at most one firing is observable), which also detaches
   `handleAbort`. -/
def raceStrategies [ITransactionWithSignatures τ] (config : BaseConfig τ ε)
    (getSpecificStrategiesForRace : GetSpecific τ ε) : RaceResult :=
  let callerAbortSignal := config.abortSignal
  if callerAbortSignal.aborted then
    { result := some (.rejected .abortError), invocations := [],
      internalAbortedAt := none, listenerAdded := false }
  else
    match getSpecificStrategiesForRace
        { config with abortSignal := internalSignalDuringRace callerAbortSignal } with
    | .error e =>
      { result := some (.rejected e), invocations := [],
        internalAbortedAt := some 0, listenerAdded := true }
    | .ok (invs, specificStrategies) =>
      let promises := racingPromises config specificStrategies
      let invocations := invs ++ [.sig (sigPromiseConfig config)]
      match raceWinner promises with
      | some (t, s) =>
        { result := some s, invocations := invocations,
          internalAbortedAt := some (internalFireTime callerAbortSignal.firesAt t),
          listenerAdded := true }
      | none =>
        { result := none, invocations := invocations,
          internalAbortedAt := callerAbortSignal.firesAt,
          listenerAdded := true }

/-- `await` of a `Promise<void>`-returning wrapper: the winning resolution
value is discarded and replaced by `undefined`; rejections pass through. -/
def voidSettlement : Settlement → Settlement
  | .resolved _ => .resolved .undef
  | .rejected e => .rejected e

/-- Lift `voidSettlement` over a whole run. -/
def voidRace (r : RaceResult) : RaceResult :=
  { r with result := r.result.map voidSettlement }

/-- The first account of the first instruction, when both exist: the value
`transaction.instructions[0].accounts[0]` reads positionally. -/
def firstInstructionFirstAccount (tx : DurableNonceTransaction) : Option IAccountMeta :=
  tx.instructions.head?.bind fun instruction0 => instruction0.accounts.head?

/-- The `getSpecificStrategiesForRace` callback of
`waitForDurableNonceTransactionConfirmation`.  Reading
`transaction.instructions[0].accounts[0].address` with an empty instruction
list (or an empty account list on the first instruction) evaluates a
property of `undefined` and throws a `TypeError` before the factory is
called. -/
def getSpecificStrategiesForRaceDurableNonce :
    GetSpecific DurableNonceTransaction NonceFactory := fun config =>
  match firstInstructionFirstAccount config.transaction with
  | none => .error .typeError
  | some account0 =>
    let args : NonceInvalidationPromiseConfig :=
      { abortSignal := config.abortSignal,
        commitment := config.commitment,
        currentNonceValue := config.transaction.lifetimeConstraint.nonce,
        nonceAccountAddress := account0.address }
    .ok ([.nonce args],
      [WaitForDurableNonceTransactionConfirmationConfig.getNonceInvalidationPromise config args])

/-- `waitForDurableNonceTransactionConfirmation`. -/
def waitForDurableNonceTransactionConfirmation
    (config : WaitForDurableNonceTransactionConfirmationConfig) : RaceResult :=
  voidRace (raceStrategies config getSpecificStrategiesForRaceDurableNonce)

/-- The `getSpecificStrategiesForRace` callback of
`waitForRecentTransactionConfirmation`. -/
def getSpecificStrategiesForRaceBlockheight :
    GetSpecific BlockhashLifetimeTransaction BlockheightFactory := fun config =>
  let args : BlockHeightExceedencePromiseConfig :=
    { abortSignal := config.abortSignal,
      lastValidBlockHeight := config.transaction.lifetimeConstraint.lastValidBlockHeight }
  .ok ([.blockheight args],
    [WaitForRecentTransactionWithBlockhashLifetimeConfirmationConfig.getBlockHeightExceedencePromise
      config args])

/-- `waitForRecentTransactionConfirmation`. -/
def waitForRecentTransactionConfirmation
    (config : WaitForRecentTransactionWithBlockhashLifetimeConfirmationConfig) : RaceResult :=
  voidRace (raceStrategies config getSpecificStrategiesForRaceBlockheight)

/-- An opaque bound RPC endpoint. -/
structure Rpc where
  endpointId : Nat
deriving DecidableEq, Repr

/-- An opaque bound RPC-subscriptions endpoint. -/
structure RpcSubscriptions where
  endpointId : Nat
deriving DecidableEq, Repr

/-- The caller-facing config of a default durable-nonce confirmer: the wait
config minus the two factory fields. -/
structure DefaultDurableNonceConfirmConfig where
  abortSignal : AbortSignal
  commitment : Commitment
  transaction : DurableNonceTransaction

/-- The caller-facing config of a default recent-transaction confirmer. -/
structure DefaultRecentConfirmConfig where
  abortSignal : AbortSignal
  commitment : Commitment
  transaction : BlockhashLifetimeTransaction

/-- `createDefaultDurableNonceTransactionConfirmer`.  The two
`create...PromiseFactory` constructors are external collaborators (their
files are not under `src/`), so they are taken as parameters; the source
applies each to `(rpc, rpcSubscriptions)` once, at confirmer-creation time,
and the returned `confirmTransaction` closes over the two instances. -/
def createDefaultDurableNonceTransactionConfirmer
    (createNonceInvalidationPromiseFactory : Rpc → RpcSubscriptions → NonceFactory)
    (createRecentSignatureConfirmationPromiseFactory : Rpc → RpcSubscriptions → SigFactory)
    (rpc : Rpc) (rpcSubscriptions : RpcSubscriptions) :
    DefaultDurableNonceConfirmConfig → RaceResult :=
  let getNonceInvalidationPromise := createNonceInvalidationPromiseFactory rpc rpcSubscriptions
  let getRecentSignatureConfirmationPromise :=
    createRecentSignatureConfirmationPromiseFactory rpc rpcSubscriptions
  fun config =>
    voidRace (waitForDurableNonceTransactionConfirmation
      { abortSignal := config.abortSignal,
        commitment := config.commitment,
        getRecentSignatureConfirmationPromise := getRecentSignatureConfirmationPromise,
        transaction := config.transaction,
        extra := getNonceInvalidationPromise })

/-- `createDefaultRecentTransactionConfirmer`. -/
def createDefaultRecentTransactionConfirmer
    (createBlockHeightExceedencePromiseFactory : RpcSubscriptions → BlockheightFactory)
    (createRecentSignatureConfirmationPromiseFactory : Rpc → RpcSubscriptions → SigFactory)
    (rpc : Rpc) (rpcSubscriptions : RpcSubscriptions) :
    DefaultRecentConfirmConfig → RaceResult :=
  let getBlockHeightExceedencePromise := createBlockHeightExceedencePromiseFactory rpcSubscriptions
  let getRecentSignatureConfirmationPromise :=
    createRecentSignatureConfirmationPromiseFactory rpc rpcSubscriptions
  fun config =>
    voidRace (waitForRecentTransactionConfirmation
      { abortSignal := config.abortSignal,
        commitment := config.commitment,
        getRecentSignatureConfirmationPromise := getRecentSignatureConfirmationPromise,
        transaction := config.transaction,
        extra := getBlockHeightExceedencePromise })

/-- `settlesAfter t p`: promise behaviour `p` has no settlement at any time
`≤ t` (it is still pending when time `t` has passed). -/
def settlesAfter (t : Nat) : PromiseB → Bool
  | none => true
  | some ts => decide (t < ts.1)

/-- `rejectsAbortedFrom c p`: promise behaviour `p` rejects with an
`AbortError` at some time `≥ c` — the §6 contract of a factory whose signal
fires at `c`. -/
def rejectsAbortedFrom (c : Nat) : PromiseB → Bool
  | some (t, .rejected .abortError) => decide (c ≤ t)
  | _ => false

/-- Modelled from the spec: the divergence-handling of the
nonce-invalidation factory (`createNonceInvalidationPromiseFactory` in
`transaction-confirmation-strategy-nonce`, which is not under `src/`).  Per
§4.2 and §6, when the factory observes the on-chain nonce value diverge
from `currentNonceValue` at time `td` while the signature-confirmation
signal is still pending, it "defers to the still-pending
signature-confirmation signal rather than declaring failure outright": the
observation at `td` does not settle the nonce promise, so the promise it
returned is still pending at the signature's settlement time `ts ≥ td`. -/
def NonceFactoryObservesDivergenceDeferringAt (noncePromise : PromiseB)
    (td ts : Nat) : Prop :=
  td ≤ ts ∧ settlesAfter ts noncePromise = true

/-- The argument record `waitForDurableNonceTransactionConfirmation` passes
to the nonce-invalidation factory, given the first instruction's first
account. -/
def durableNonceArgs (config : WaitForDurableNonceTransactionConfirmationConfig)
    (account0 : IAccountMeta) : NonceInvalidationPromiseConfig :=
  { abortSignal := internalSignalDuringRace config.abortSignal,
    commitment := config.commitment,
    currentNonceValue := config.transaction.lifetimeConstraint.nonce,
    nonceAccountAddress := account0.address }

/-- The argument record `waitForRecentTransactionConfirmation` passes to
the block-height-exceedence factory. -/
def blockheightArgs
    (config : WaitForRecentTransactionWithBlockhashLifetimeConfirmationConfig) :
    BlockHeightExceedencePromiseConfig :=
  { abortSignal := internalSignalDuringRace config.abortSignal,
    lastValidBlockHeight := config.transaction.lifetimeConstraint.lastValidBlockHeight }

theorem voidRace_invocations (r : RaceResult) : (voidRace r).invocations = r.invocations :=
  rfl

theorem voidRace_internalAbortedAt (r : RaceResult) :
    (voidRace r).internalAbortedAt = r.internalAbortedAt :=
  rfl

theorem voidRace_callerListenerRemains (r : RaceResult) :
    (voidRace r).callerListenerRemains = r.callerListenerRemains :=
  rfl

theorem voidRace_result_isSome (r : RaceResult) :
    (voidRace r).result.isSome = r.result.isSome := by
  cases hr : r.result <;> simp [voidRace, hr]

theorem voidSettlement_voidSettlement (s : Settlement) :
    voidSettlement (voidSettlement s) = voidSettlement s := by
  cases s <;> rfl

theorem voidRace_voidRace (r : RaceResult) : voidRace (voidRace r) = voidRace r := by
  cases hr : r.result with
  | none => simp [voidRace, hr]
  | some s => simp [voidRace, hr, voidSettlement_voidSettlement]

/-- If both promises are still pending when time `t` has passed, so is
their race. -/
theorem settlesAfter_raceFirst (t : Nat) (p q : PromiseB)
    (hp : settlesAfter t p = true) (hq : settlesAfter t q = true) :
    settlesAfter t (raceFirst p q) = true := by
  cases p with
  | none => simpa [raceFirst] using hq
  | some ts =>
    cases q with
    | none => simpa [raceFirst] using hp
    | some ts' =>
      by_cases hle : ts.1 ≤ ts'.1
      · simpa [raceFirst, hle] using hp
      · simpa [raceFirst, hle] using hq

/-- If every promise in the list is still pending when time `t` has passed,
so is the race over them. -/
theorem settlesAfter_raceWinner (t : Nat) :
    ∀ ps : List PromiseB, (∀ p ∈ ps, settlesAfter t p = true) →
      settlesAfter t (raceWinner ps) = true := by
  intro ps
  induction ps with
  | nil => intro _; rfl
  | cons p rest ih =>
    intro h
    exact settlesAfter_raceFirst t p (raceWinner rest)
      (h p (List.mem_cons_self p rest))
      (ih fun q hq => h q (List.mem_cons_of_mem p hq))

/-- First-settlement-wins, uniqueness form: if the promise at index `i`
settles at time `t` and every other promise in the list is still pending at
`t`, the race settles exactly as that promise does. -/
theorem raceWinner_of_unique :
    ∀ (ps : List PromiseB) (i : Nat) (hi : i < ps.length) (t : Nat) (s : Settlement),
      ps.get ⟨i, hi⟩ = some (t, s) →
      (∀ (j : Nat) (hj : j < ps.length), j ≠ i → settlesAfter t (ps.get ⟨j, hj⟩) = true) →
      raceWinner ps = some (t, s) := by
  intro ps
  induction ps with
  | nil => intro i hi; exact absurd hi (by simp)
  | cons p rest ih =>
    intro i hi t s hwin hothers
    cases i with
    | zero =>
      have hp : p = some (t, s) := hwin
      have hrest : settlesAfter t (raceWinner rest) = true := by
        apply settlesAfter_raceWinner
        intro q hq
        obtain ⟨j, hj⟩ := List.mem_iff_get.mp hq
        have := hothers (j.1 + 1) (by simp) (Nat.succ_ne_zero j.1)
        rw [← hj]
        simpa using this
      subst hp
      cases hw : raceWinner rest with
      | none => simp [raceWinner, raceFirst, hw]
      | some ts' =>
        rw [hw] at hrest
        simp only [settlesAfter, decide_eq_true_eq] at hrest
        simp [raceWinner, raceFirst, hw, Nat.le_of_lt hrest]
    | succ i' =>
      have hi' : i' < rest.length := by simpa using hi
      have hwin' : rest.get ⟨i', hi'⟩ = some (t, s) := hwin
      have hothers' : ∀ (j : Nat) (hj : j < rest.length), j ≠ i' →
          settlesAfter t (rest.get ⟨j, hj⟩) = true := by
        intro j hj hne
        have := hothers (j + 1) (by simpa using hj) (fun hc => hne (Nat.succ_injective hc))
        simpa using this
      have hwr : raceWinner rest = some (t, s) := ih i' hi' t s hwin' hothers'
      have hp : settlesAfter t p = true := by
        have := hothers 0 (by simp) (Nat.succ_ne_zero i').symm
        simpa using this
      cases hpv : p with
      | none => simp [raceWinner, raceFirst, hpv, hwr]
      | some ts0 =>
        rw [hpv] at hp
        simp only [settlesAfter, decide_eq_true_eq] at hp
        have hnle : ¬ ts0.1 ≤ t := by omega
        simp [raceWinner, raceFirst, hpv, hwr, hnle]

/-- Unpack the §6 abort-rejection contract of a promise behaviour. -/
theorem rejectsAbortedFrom_spec (c : Nat) (p : PromiseB)
    (h : rejectsAbortedFrom c p = true) :
    ∃ t, p = some (t, .rejected .abortError) ∧ c ≤ t := by
  cases p with
  | none => exact absurd h (by simp [rejectsAbortedFrom])
  | some ts =>
    obtain ⟨t, s⟩ := ts
    cases s with
    | resolved v => exact absurd h (by simp [rejectsAbortedFrom])
    | rejected e =>
      cases e with
      | abortError =>
        refine ⟨t, rfl, ?_⟩
        simpa [rejectsAbortedFrom] using h
      | typeError => exact absurd h (by simp [rejectsAbortedFrom])
      | invalidated a b => exact absurd h (by simp [rejectsAbortedFrom])
      | other m => exact absurd h (by simp [rejectsAbortedFrom])

/-- If every promise in a non-empty racing set rejects with an `AbortError`
at a time `≥ c`, so does the race, at a time `≥ c`. -/
theorem raceWinner_all_aborted (c : Nat) :
    ∀ ps : List PromiseB, (∀ p ∈ ps, rejectsAbortedFrom c p = true) → ps ≠ [] →
      ∃ t, raceWinner ps = some (t, .rejected .abortError) ∧ c ≤ t := by
  intro ps
  induction ps with
  | nil => intro _ hne; exact absurd rfl hne
  | cons p rest ih =>
    intro h _
    obtain ⟨tp, hp, hcp⟩ := rejectsAbortedFrom_spec c p (h p (List.mem_cons_self p rest))
    cases rest with
    | nil => exact ⟨tp, by simp [raceWinner, raceFirst, hp], hcp⟩
    | cons q qs =>
      obtain ⟨tr, hwr, hcr⟩ :=
        ih (fun x hx => h x (List.mem_cons_of_mem p hx)) (by simp)
      by_cases hle : tp ≤ tr
      · exact ⟨tp, by rw [raceWinner, hp, hwr]; simp [raceFirst, hle], hcp⟩
      · exact ⟨tr, by rw [raceWinner, hp, hwr]; simp [raceFirst, hle], hcr⟩

/-- The internal signal never fires later than the race settles. -/
theorem internalFireTime_le (callerFiresAt : Option Nat) (settleAt : Nat) :
    internalFireTime callerFiresAt settleAt ≤ settleAt := by
  cases callerFiresAt with
  | none => exact Nat.le_refl settleAt
  | some c => exact Nat.min_le_right c settleAt

/-- A concrete durable-nonce transaction used by witnesses. -/
def exampleNonceTransaction : DurableNonceTransaction :=
  { feePayer := "feePayerAddress",
    signatures := ["primarySig"],
    instructions := [{ programAddress := "nonceProgram",
                       accounts := [{ address := "nonceAcct" }] }],
    lifetimeConstraint := { nonce := "N1" } }

/-- A concrete blockhash-lifetime transaction used by witnesses. -/
def exampleBlockhashTransaction : BlockhashLifetimeTransaction :=
  { feePayer := "feePayerAddress",
    signatures := ["primarySig"],
    instructions := [],
    lifetimeConstraint := { blockhash := "BH", lastValidBlockHeight := 100 } }

/-- A signature-confirmation factory that resolves at time 5. -/
def exampleSigFactoryResolves : SigFactory := fun _ => some (5, .resolved .undef)

/-- A nonce-invalidation factory whose promise stays pending. -/
def exampleNonceFactoryPending : NonceFactory := fun _ => none

/-- A block-height-exceedence factory whose promise stays pending. -/
def exampleBlockheightFactoryPending : BlockheightFactory := fun _ => none

/-- A concrete durable-nonce wait config used by witnesses. -/
def exampleDurableConfig : WaitForDurableNonceTransactionConfirmationConfig :=
  { abortSignal := { aborted := false, firesAt := none },
    commitment := .confirmed,
    getRecentSignatureConfirmationPromise := exampleSigFactoryResolves,
    transaction := exampleNonceTransaction,
    extra := exampleNonceFactoryPending }

/-- A concrete recent-transaction wait config used by witnesses. -/
def exampleRecentConfig :
    WaitForRecentTransactionWithBlockhashLifetimeConfirmationConfig :=
  { abortSignal := { aborted := false, firesAt := none },
    commitment := .confirmed,
    getRecentSignatureConfirmationPromise := exampleSigFactoryResolves,
    transaction := exampleBlockhashTransaction,
    extra := exampleBlockheightFactoryPending }

/-- C1: in any `raceStrategies` invocation (hence in both public wait
operations) in which exactly one racing promise — the generic
signature-confirmation promise or a strategy-specific one — settles at time
`t` while every other racing promise is still pending at `t`, the overall
result equals that first settlement (its value if it resolved, its error if
it rejected), and the internal cancellation signal fires (no later than
`t`), telling all other racing signals to stop.  At most one outcome per
attempt is structural in the model: `result` is a single settlement. -/
theorem raceStrategies_first_settlement_wins {τ ε : Type}
    [ITransactionWithSignatures τ]
    (config : BaseConfig τ ε) (getSpec : GetSpecific τ ε)
    (invs : List FactoryInvocation) (specificStrategies : List PromiseB)
    (i : Nat) (t : Nat) (s : Settlement)
    (hpre : config.abortSignal.aborted = false)
    (hspec : getSpec { config with abortSignal := internalSignalDuringRace config.abortSignal }
      = .ok (invs, specificStrategies))
    (hi : i < (racingPromises config specificStrategies).length)
    (hwin : (racingPromises config specificStrategies).get ⟨i, hi⟩ = some (t, s))
    (hothers : ∀ (j : Nat) (hj : j < (racingPromises config specificStrategies).length),
      j ≠ i → settlesAfter t ((racingPromises config specificStrategies).get ⟨j, hj⟩) = true) :
    (raceStrategies config getSpec).result = some s ∧
    ∃ ta, (raceStrategies config getSpec).internalAbortedAt = some ta ∧ ta ≤ t := by
  have hw : raceWinner (racingPromises config specificStrategies) = some (t, s) :=
    raceWinner_of_unique _ i hi t s hwin hothers
  have hrs : raceStrategies config getSpec =
      { result := some s,
        invocations := invs ++ [.sig (sigPromiseConfig config)],
        internalAbortedAt := some (internalFireTime config.abortSignal.firesAt t),
        listenerAdded := true } := by
    simp [raceStrategies, hpre, hspec, hw]
  rw [hrs]
  exact ⟨rfl, internalFireTime config.abortSignal.firesAt t, rfl, internalFireTime_le _ _⟩

/-- Witness for C1: a durable-nonce race in which the signature signal
resolves at time 5 and the nonce signal stays pending. -/
theorem raceStrategies_first_settlement_wins_witness :
    (raceStrategies exampleDurableConfig getSpecificStrategiesForRaceDurableNonce).result
        = some (.resolved .undef) ∧
    ∃ ta, (raceStrategies exampleDurableConfig
        getSpecificStrategiesForRaceDurableNonce).internalAbortedAt = some ta ∧ ta ≤ 5 :=
  raceStrategies_first_settlement_wins exampleDurableConfig
    getSpecificStrategiesForRaceDurableNonce
    [.nonce { abortSignal := { aborted := false, firesAt := none },
              commitment := .confirmed, currentNonceValue := "N1",
              nonceAccountAddress := "nonceAcct" }]
    [none] 0 5 (.resolved .undef) rfl rfl (by decide) (by decide) (by decide)

/-- C3: if the caller's cancellation signal is already set at call time,
`raceStrategies` — and with it both public wait operations — rejects
immediately with an aborted error and no signal factory is ever invoked. -/
theorem raceStrategies_early_abort_rejects_without_invoking {τ ε : Type}
    [ITransactionWithSignatures τ]
    (config : BaseConfig τ ε) (getSpec : GetSpecific τ ε)
    (dconfig : WaitForDurableNonceTransactionConfirmationConfig)
    (rconfig : WaitForRecentTransactionWithBlockhashLifetimeConfirmationConfig)
    (hg : config.abortSignal.aborted = true)
    (hd : dconfig.abortSignal.aborted = true)
    (hr : rconfig.abortSignal.aborted = true) :
    ((raceStrategies config getSpec).result = some (.rejected .abortError) ∧
      (raceStrategies config getSpec).invocations = []) ∧
    ((waitForDurableNonceTransactionConfirmation dconfig).result
        = some (.rejected .abortError) ∧
      (waitForDurableNonceTransactionConfirmation dconfig).invocations = []) ∧
    ((waitForRecentTransactionConfirmation rconfig).result
        = some (.rejected .abortError) ∧
      (waitForRecentTransactionConfirmation rconfig).invocations = []) := by
  refine ⟨⟨?_, ?_⟩, ⟨?_, ?_⟩, ?_, ?_⟩ <;>
    simp [raceStrategies, waitForDurableNonceTransactionConfirmation,
      waitForRecentTransactionConfirmation, voidRace, voidSettlement, hg, hd, hr]

/-- Witness for C3 at concrete pre-aborted configs. -/
theorem raceStrategies_early_abort_rejects_without_invoking_witness :
    ((raceStrategies { exampleDurableConfig with abortSignal := ⟨true, none⟩ }
        getSpecificStrategiesForRaceDurableNonce).result
      = some (.rejected .abortError) ∧
     (raceStrategies { exampleDurableConfig with abortSignal := ⟨true, none⟩ }
        getSpecificStrategiesForRaceDurableNonce).invocations = []) ∧
    ((waitForDurableNonceTransactionConfirmation
        { exampleDurableConfig with abortSignal := ⟨true, none⟩ }).result
      = some (.rejected .abortError) ∧
     (waitForDurableNonceTransactionConfirmation
        { exampleDurableConfig with abortSignal := ⟨true, none⟩ }).invocations = []) ∧
    ((waitForRecentTransactionConfirmation
        { exampleRecentConfig with abortSignal := ⟨true, none⟩ }).result
      = some (.rejected .abortError) ∧
     (waitForRecentTransactionConfirmation
        { exampleRecentConfig with abortSignal := ⟨true, none⟩ }).invocations = []) :=
  raceStrategies_early_abort_rejects_without_invoking
    { exampleDurableConfig with abortSignal := ⟨true, none⟩ }
    getSpecificStrategiesForRaceDurableNonce
    { exampleDurableConfig with abortSignal := ⟨true, none⟩ }
    { exampleRecentConfig with abortSignal := ⟨true, none⟩ }
    rfl rfl rfl

/-- C5: on every exit path of `raceStrategies` that reaches the racing
phase and produces an outcome — the race resolving, the race rejecting, or
the specific-strategy derivation throwing synchronously — the internally
owned cancellation signal is fired.  At most one firing is observable per
invocation (`AbortController.abort` is idempotent; the model records the
single time the signal fired). -/
theorem raceStrategies_internal_abort_fires_on_every_settled_path {τ ε : Type}
    [ITransactionWithSignatures τ]
    (config : BaseConfig τ ε) (getSpec : GetSpecific τ ε) (s : Settlement)
    (hpre : config.abortSignal.aborted = false)
    (hres : (raceStrategies config getSpec).result = some s) :
    (raceStrategies config getSpec).internalAbortedAt.isSome = true := by
  cases hg : getSpec { config with abortSignal := internalSignalDuringRace config.abortSignal } with
  | error e => simp [raceStrategies, hpre, hg]
  | ok pr =>
    obtain ⟨invs, sps⟩ := pr
    cases hw : raceWinner (racingPromises config sps) with
    | none =>
      exfalso
      have hnone : (raceStrategies config getSpec).result = none := by
        simp [raceStrategies, hpre, hg, hw]
      rw [hnone] at hres
      exact Option.noConfusion hres
    | some ts => simp [raceStrategies, hpre, hg, hw]

/-- Witness for C5: the race settles at time 5, and the internal signal has
indeed fired. -/
theorem raceStrategies_internal_abort_fires_on_every_settled_path_witness :
    (raceStrategies exampleDurableConfig
        getSpecificStrategiesForRaceDurableNonce).internalAbortedAt.isSome = true :=
  raceStrategies_internal_abort_fires_on_every_settled_path exampleDurableConfig
    getSpecificStrategiesForRaceDurableNonce (.resolved .undef) rfl (by decide)

/-- C2: for a durable-nonce transaction whose nonce-invalidation signal
observes on-chain divergence (at time `td`) before the signature signal
settles, the waiter still awaits the signature signal rather than rejecting
immediately — the divergence observation defers (spec-modelled §4.2/§6
factory semantics, `NonceFactoryObservesDivergenceDeferringAt`) — and when
the signature signal then resolves (at time `ts ≥ td`), the overall call
resolves. -/
theorem waitForDurableNonce_defers_to_signature_on_divergence
    (config : WaitForDurableNonceTransactionConfirmationConfig)
    (account0 : IAccountMeta) (td ts : Nat) (v : JsValue)
    (hpre : config.abortSignal.aborted = false)
    (hacct : firstInstructionFirstAccount config.transaction = some account0)
    (hsig : config.getRecentSignatureConfirmationPromise (sigPromiseConfig config)
        = some (ts, .resolved v))
    (hnonce : NonceFactoryObservesDivergenceDeferringAt
        (WaitForDurableNonceTransactionConfirmationConfig.getNonceInvalidationPromise
          config (durableNonceArgs config account0)) td ts) :
    (waitForDurableNonceTransactionConfirmation config).result
        = some (.resolved .undef) := by
  have hspec : getSpecificStrategiesForRaceDurableNonce
      { config with abortSignal := internalSignalDuringRace config.abortSignal }
      = .ok ([.nonce (durableNonceArgs config account0)],
             [WaitForDurableNonceTransactionConfirmationConfig.getNonceInvalidationPromise
                config (durableNonceArgs config account0)]) := by
    simp [getSpecificStrategiesForRaceDurableNonce, hacct, durableNonceArgs,
      WaitForDurableNonceTransactionConfirmationConfig.getNonceInvalidationPromise]
  have hafter := hnonce.2
  cases hn : WaitForDurableNonceTransactionConfirmationConfig.getNonceInvalidationPromise
      config (durableNonceArgs config account0) with
  | none =>
    rw [hn] at hspec
    have hw : raceWinner (racingPromises config [none]) = some (ts, .resolved v) := by
      simp [racingPromises, raceWinner, raceFirst, hsig]
    simp [waitForDurableNonceTransactionConfirmation, raceStrategies, hpre, hspec, hw,
      voidRace, voidSettlement]
  | some tn =>
    rw [hn] at hspec
    rw [hn] at hafter
    simp only [settlesAfter, decide_eq_true_eq] at hafter
    have hle : ts ≤ tn.1 := Nat.le_of_lt hafter
    have hw : raceWinner (racingPromises config [some tn]) = some (ts, .resolved v) := by
      simp [racingPromises, raceWinner, raceFirst, hsig, hle]
    simp [waitForDurableNonceTransactionConfirmation, raceStrategies, hpre, hspec, hw,
      voidRace, voidSettlement]

/-- Witness for C2: the nonce factory observes divergence at time 3 but
defers (its promise stays pending); the signature signal resolves at
time 5; the call resolves. -/
theorem waitForDurableNonce_defers_to_signature_on_divergence_witness :
    (waitForDurableNonceTransactionConfirmation exampleDurableConfig).result
        = some (.resolved .undef) :=
  waitForDurableNonce_defers_to_signature_on_divergence exampleDurableConfig
    { address := "nonceAcct" } 3 5 .undef rfl rfl rfl ⟨by decide, rfl⟩

/-- C4: if the caller's cancellation signal fires at time `c` while the
confirmation is pending, the internally owned signal fires at `c`
(`handleAbort` forwarding), every in-flight factory was invoked with that
internal signal (so it observes the cancellation), and — the factories
honouring the §6 contract of rejecting with an aborted error once their
signal fires — the overall promise rejects with an aborted error. -/
theorem caller_abort_propagates_and_rejects_aborted
    (config : WaitForDurableNonceTransactionConfirmationConfig)
    (account0 : IAccountMeta) (c : Nat)
    (hpre : config.abortSignal.aborted = false)
    (hfires : config.abortSignal.firesAt = some c)
    (hacct : firstInstructionFirstAccount config.transaction = some account0)
    (hsig : rejectsAbortedFrom c
        (config.getRecentSignatureConfirmationPromise (sigPromiseConfig config)) = true)
    (hnonce : rejectsAbortedFrom c
        (WaitForDurableNonceTransactionConfirmationConfig.getNonceInvalidationPromise
          config (durableNonceArgs config account0)) = true) :
    (waitForDurableNonceTransactionConfirmation config).result
        = some (.rejected .abortError) ∧
    (waitForDurableNonceTransactionConfirmation config).internalAbortedAt = some c ∧
    (waitForDurableNonceTransactionConfirmation config).invocations
        = [.nonce (durableNonceArgs config account0), .sig (sigPromiseConfig config)] := by
  have hspec : getSpecificStrategiesForRaceDurableNonce
      { config with abortSignal := internalSignalDuringRace config.abortSignal }
      = .ok ([.nonce (durableNonceArgs config account0)],
             [WaitForDurableNonceTransactionConfirmationConfig.getNonceInvalidationPromise
                config (durableNonceArgs config account0)]) := by
    simp [getSpecificStrategiesForRaceDurableNonce, hacct, durableNonceArgs,
      WaitForDurableNonceTransactionConfirmationConfig.getNonceInvalidationPromise]
  have hall : ∀ p ∈ racingPromises config
      [WaitForDurableNonceTransactionConfirmationConfig.getNonceInvalidationPromise
        config (durableNonceArgs config account0)],
      rejectsAbortedFrom c p = true := by
    intro p hp
    simp only [racingPromises, List.mem_cons, List.mem_singleton] at hp
    rcases hp with hp | hp | hp
    · rw [hp]; exact hsig
    · rw [hp]; exact hnonce
    · exact absurd hp (by simp)
  obtain ⟨tw, hw, hcw⟩ := raceWinner_all_aborted c _ hall (by simp [racingPromises])
  have hmin : internalFireTime config.abortSignal.firesAt tw = c := by
    rw [hfires]
    exact Nat.min_eq_left hcw
  refine ⟨?_, ?_, ?_⟩ <;>
    simp [waitForDurableNonceTransactionConfirmation, raceStrategies, hpre, hspec, hw,
      hmin, voidRace, voidSettlement]

/-- A signature-confirmation factory that rejects with an aborted error at
time 2 (its signal fires at 2). -/
def exampleSigFactoryAborts : SigFactory := fun _ => some (2, .rejected .abortError)

/-- A nonce-invalidation factory that rejects with an aborted error at
time 3. -/
def exampleNonceFactoryAborts : NonceFactory := fun _ => some (3, .rejected .abortError)

/-- A durable-nonce wait config whose caller signal fires at time 2 and
whose factories honour the abort contract. -/
def exampleAbortingConfig : WaitForDurableNonceTransactionConfirmationConfig :=
  { abortSignal := { aborted := false, firesAt := some 2 },
    commitment := .confirmed,
    getRecentSignatureConfirmationPromise := exampleSigFactoryAborts,
    transaction := exampleNonceTransaction,
    extra := exampleNonceFactoryAborts }

/-- Witness for C4: caller fires at time 2; both factories reject aborted;
the call rejects aborted and the internal signal fired at 2. -/
theorem caller_abort_propagates_and_rejects_aborted_witness :
    (waitForDurableNonceTransactionConfirmation exampleAbortingConfig).result
        = some (.rejected .abortError) ∧
    (waitForDurableNonceTransactionConfirmation exampleAbortingConfig).internalAbortedAt
        = some 2 ∧
    (waitForDurableNonceTransactionConfirmation exampleAbortingConfig).invocations
        = [.nonce (durableNonceArgs exampleAbortingConfig { address := "nonceAcct" }),
           .sig (sigPromiseConfig exampleAbortingConfig)] :=
  caller_abort_propagates_and_rejects_aborted exampleAbortingConfig
    { address := "nonceAcct" } 2 rfl rfl rfl (by decide) (by decide)

/-- Any settled `raceStrategies` run leaves no `handleAbort` listener on
the caller's signal: either the listener was never added (early abort) or
the internal signal fired, which detaches it (the `{ signal }` option). -/
theorem raceStrategies_settled_leaves_no_listener {τ ε : Type}
    [ITransactionWithSignatures τ]
    (config : BaseConfig τ ε) (getSpec : GetSpecific τ ε)
    (hres : (raceStrategies config getSpec).result.isSome = true) :
    (raceStrategies config getSpec).callerListenerRemains = false := by
  by_cases hpre : config.abortSignal.aborted = true
  · simp [raceStrategies, hpre, RaceResult.callerListenerRemains]
  · rw [Bool.not_eq_true] at hpre
    cases hg : getSpec { config with abortSignal := internalSignalDuringRace config.abortSignal } with
    | error e => simp [raceStrategies, hpre, hg, RaceResult.callerListenerRemains]
    | ok pr =>
      obtain ⟨invs, sps⟩ := pr
      cases hw : raceWinner (racingPromises config sps) with
      | none =>
        exfalso
        have hnone : (raceStrategies config getSpec).result = none := by
          simp [raceStrategies, hpre, hg, hw]
        rw [hnone] at hres
        simp at hres
      | some ts => simp [raceStrategies, hpre, hg, hw, RaceResult.callerListenerRemains]

/-- C6: after any call to either public wait operation completes — with any
outcome (resolved, invalidated, errored, or aborted) — the caller's
cancellation signal has no listener left that was registered by this
core. -/
theorem no_caller_listener_remains_after_completion
    (dconfig : WaitForDurableNonceTransactionConfirmationConfig)
    (rconfig : WaitForRecentTransactionWithBlockhashLifetimeConfirmationConfig) :
    ((waitForDurableNonceTransactionConfirmation dconfig).result.isSome = true →
      (waitForDurableNonceTransactionConfirmation dconfig).callerListenerRemains = false) ∧
    ((waitForRecentTransactionConfirmation rconfig).result.isSome = true →
      (waitForRecentTransactionConfirmation rconfig).callerListenerRemains = false) := by
  constructor
  · intro h
    rw [waitForDurableNonceTransactionConfirmation, voidRace_callerListenerRemains]
    apply raceStrategies_settled_leaves_no_listener
    rw [waitForDurableNonceTransactionConfirmation, voidRace_result_isSome] at h
    exact h
  · intro h
    rw [waitForRecentTransactionConfirmation, voidRace_callerListenerRemains]
    apply raceStrategies_settled_leaves_no_listener
    rw [waitForRecentTransactionConfirmation, voidRace_result_isSome] at h
    exact h

/-- Witness for C6: a completed durable-nonce call (resolved at time 5),
after which no listener remains. -/
theorem no_caller_listener_remains_after_completion_witness :
    (waitForDurableNonceTransactionConfirmation exampleDurableConfig).result.isSome = true ∧
    (waitForDurableNonceTransactionConfirmation
        exampleDurableConfig).callerListenerRemains = false :=
  ⟨rfl, (no_caller_listener_remains_after_completion exampleDurableConfig
    exampleRecentConfig).1 rfl⟩

/-- C7: `waitForDurableNonceTransactionConfirmation` supplies exactly one
strategy-specific promise to the race, produced by calling the
nonce-invalidation factory with `currentNonceValue` equal to the
transaction's lifetime-constraint nonce, `nonceAccountAddress` equal to the
address of the first account of the transaction's first instruction, the
internal cancellation signal, and the caller's commitment. -/
theorem durable_nonce_waiter_supplies_single_nonce_strategy
    (config : WaitForDurableNonceTransactionConfirmationConfig)
    (account0 : IAccountMeta)
    (hpre : config.abortSignal.aborted = false)
    (hacct : firstInstructionFirstAccount config.transaction = some account0) :
    getSpecificStrategiesForRaceDurableNonce
        { config with abortSignal := internalSignalDuringRace config.abortSignal }
      = .ok ([.nonce (durableNonceArgs config account0)],
             [WaitForDurableNonceTransactionConfirmationConfig.getNonceInvalidationPromise
                config (durableNonceArgs config account0)]) ∧
    (waitForDurableNonceTransactionConfirmation config).invocations
      = [.nonce (durableNonceArgs config account0), .sig (sigPromiseConfig config)] := by
  have hspec : getSpecificStrategiesForRaceDurableNonce
      { config with abortSignal := internalSignalDuringRace config.abortSignal }
      = .ok ([.nonce (durableNonceArgs config account0)],
             [WaitForDurableNonceTransactionConfirmationConfig.getNonceInvalidationPromise
                config (durableNonceArgs config account0)]) := by
    simp [getSpecificStrategiesForRaceDurableNonce, hacct, durableNonceArgs,
      WaitForDurableNonceTransactionConfirmationConfig.getNonceInvalidationPromise]
  refine ⟨hspec, ?_⟩
  rw [waitForDurableNonceTransactionConfirmation, voidRace_invocations]
  cases hw : raceWinner (racingPromises config
      [WaitForDurableNonceTransactionConfirmationConfig.getNonceInvalidationPromise
        config (durableNonceArgs config account0)]) with
  | none => simp [raceStrategies, hpre, hspec, hw]
  | some ts => simp [raceStrategies, hpre, hspec, hw]

/-- Witness for C7 at the concrete example config. -/
theorem durable_nonce_waiter_supplies_single_nonce_strategy_witness :
    getSpecificStrategiesForRaceDurableNonce
        { exampleDurableConfig with
            abortSignal := internalSignalDuringRace exampleDurableConfig.abortSignal }
      = .ok ([.nonce (durableNonceArgs exampleDurableConfig { address := "nonceAcct" })],
             [WaitForDurableNonceTransactionConfirmationConfig.getNonceInvalidationPromise
                exampleDurableConfig
                (durableNonceArgs exampleDurableConfig { address := "nonceAcct" })]) ∧
    (waitForDurableNonceTransactionConfirmation exampleDurableConfig).invocations
      = [.nonce (durableNonceArgs exampleDurableConfig { address := "nonceAcct" }),
         .sig (sigPromiseConfig exampleDurableConfig)] :=
  durable_nonce_waiter_supplies_single_nonce_strategy exampleDurableConfig
    { address := "nonceAcct" } rfl rfl

/-- C8: `waitForRecentTransactionConfirmation` supplies exactly one
strategy-specific promise to the race, produced by calling the
block-height-exceedance factory with `lastValidBlockHeight` taken from the
transaction's lifetime constraint, parameterized with the internal
cancellation signal. -/
theorem recent_waiter_supplies_single_blockheight_strategy
    (config : WaitForRecentTransactionWithBlockhashLifetimeConfirmationConfig)
    (hpre : config.abortSignal.aborted = false) :
    getSpecificStrategiesForRaceBlockheight
        { config with abortSignal := internalSignalDuringRace config.abortSignal }
      = .ok ([.blockheight (blockheightArgs config)],
             [WaitForRecentTransactionWithBlockhashLifetimeConfirmationConfig.getBlockHeightExceedencePromise
                config (blockheightArgs config)]) ∧
    (waitForRecentTransactionConfirmation config).invocations
      = [.blockheight (blockheightArgs config), .sig (sigPromiseConfig config)] := by
  have hspec : getSpecificStrategiesForRaceBlockheight
      { config with abortSignal := internalSignalDuringRace config.abortSignal }
      = .ok ([.blockheight (blockheightArgs config)],
             [WaitForRecentTransactionWithBlockhashLifetimeConfirmationConfig.getBlockHeightExceedencePromise
                config (blockheightArgs config)]) := by
    simp [getSpecificStrategiesForRaceBlockheight, blockheightArgs,
      WaitForRecentTransactionWithBlockhashLifetimeConfirmationConfig.getBlockHeightExceedencePromise]
  refine ⟨hspec, ?_⟩
  rw [waitForRecentTransactionConfirmation, voidRace_invocations]
  cases hw : raceWinner (racingPromises config
      [WaitForRecentTransactionWithBlockhashLifetimeConfirmationConfig.getBlockHeightExceedencePromise
        config (blockheightArgs config)]) with
  | none => simp [raceStrategies, hpre, hspec, hw]
  | some ts => simp [raceStrategies, hpre, hspec, hw]

/-- Witness for C8 at the concrete example config. -/
theorem recent_waiter_supplies_single_blockheight_strategy_witness :
    getSpecificStrategiesForRaceBlockheight
        { exampleRecentConfig with
            abortSignal := internalSignalDuringRace exampleRecentConfig.abortSignal }
      = .ok ([.blockheight (blockheightArgs exampleRecentConfig)],
             [WaitForRecentTransactionWithBlockhashLifetimeConfirmationConfig.getBlockHeightExceedencePromise
                exampleRecentConfig (blockheightArgs exampleRecentConfig)]) ∧
    (waitForRecentTransactionConfirmation exampleRecentConfig).invocations
      = [.blockheight (blockheightArgs exampleRecentConfig),
         .sig (sigPromiseConfig exampleRecentConfig)] :=
  recent_waiter_supplies_single_blockheight_strategy exampleRecentConfig rfl

/-- C9: for every config, the confirmation function returned by
`createDefaultDurableNonceTransactionConfirmer` (respectively
`createDefaultRecentTransactionConfirmer`) behaves identically to calling
`waitForDurableNonceTransactionConfirmation` (respectively
`waitForRecentTransactionConfirmation`) with the same config extended with
the signal-factory instances constructed from the given `rpc` and
`rpcSubscriptions` endpoints at confirmer-creation time; the factory layer
adds no behavior beyond partial application.  (That construction happens
once rather than per call is structural: the returned closure closes over
the two instances, which do not depend on the per-call config.) -/
theorem default_confirmers_are_partial_application
    (createNonceInvalidationPromiseFactory : Rpc → RpcSubscriptions → NonceFactory)
    (createBlockHeightExceedencePromiseFactory : RpcSubscriptions → BlockheightFactory)
    (createRecentSignatureConfirmationPromiseFactory : Rpc → RpcSubscriptions → SigFactory)
    (rpc : Rpc) (rpcSubscriptions : RpcSubscriptions)
    (dconfig : DefaultDurableNonceConfirmConfig)
    (rconfig : DefaultRecentConfirmConfig) :
    createDefaultDurableNonceTransactionConfirmer createNonceInvalidationPromiseFactory
        createRecentSignatureConfirmationPromiseFactory rpc rpcSubscriptions dconfig
      = waitForDurableNonceTransactionConfirmation
          { abortSignal := dconfig.abortSignal,
            commitment := dconfig.commitment,
            getRecentSignatureConfirmationPromise :=
              createRecentSignatureConfirmationPromiseFactory rpc rpcSubscriptions,
            transaction := dconfig.transaction,
            extra := createNonceInvalidationPromiseFactory rpc rpcSubscriptions } ∧
    createDefaultRecentTransactionConfirmer createBlockHeightExceedencePromiseFactory
        createRecentSignatureConfirmationPromiseFactory rpc rpcSubscriptions rconfig
      = waitForRecentTransactionConfirmation
          { abortSignal := rconfig.abortSignal,
            commitment := rconfig.commitment,
            getRecentSignatureConfirmationPromise :=
              createRecentSignatureConfirmationPromiseFactory rpc rpcSubscriptions,
            transaction := rconfig.transaction,
            extra := createBlockHeightExceedencePromiseFactory rpcSubscriptions } := by
  constructor
  · simp only [createDefaultDurableNonceTransactionConfirmer,
      waitForDurableNonceTransactionConfirmation]
    rw [voidRace_voidRace]
  · simp only [createDefaultRecentTransactionConfirmer,
      waitForRecentTransactionConfirmation]
    rw [voidRace_voidRace]

/-- C10: the positional read
`transaction.instructions[0].accounts[0].address` is unguarded: when the
first instruction's first account exists the strategy derivation is defined
(`.ok`), and for a transaction violating the positional precondition the
call fails with a `TypeError` — not an aborted or invalidated outcome —
before any strategy-specific promise is created (no factory invoked). -/
theorem durable_nonce_positional_access_unguarded
    (gconfig bconfig : WaitForDurableNonceTransactionConfirmationConfig)
    (account0 : IAccountMeta)
    (hgood : firstInstructionFirstAccount gconfig.transaction = some account0)
    (hbpre : bconfig.abortSignal.aborted = false)
    (hbad : firstInstructionFirstAccount bconfig.transaction = none) :
    (∃ invs ps, getSpecificStrategiesForRaceDurableNonce
        { gconfig with abortSignal := internalSignalDuringRace gconfig.abortSignal }
        = .ok (invs, ps)) ∧
    (waitForDurableNonceTransactionConfirmation bconfig).result
        = some (.rejected .typeError) ∧
    (waitForDurableNonceTransactionConfirmation bconfig).invocations = [] := by
  refine ⟨?_, ?_, ?_⟩
  · exact ⟨[.nonce (durableNonceArgs gconfig account0)],
      [WaitForDurableNonceTransactionConfirmationConfig.getNonceInvalidationPromise
        gconfig (durableNonceArgs gconfig account0)],
      by simp [getSpecificStrategiesForRaceDurableNonce, hgood, durableNonceArgs,
        WaitForDurableNonceTransactionConfirmationConfig.getNonceInvalidationPromise]⟩
  · simp [waitForDurableNonceTransactionConfirmation, raceStrategies,
      getSpecificStrategiesForRaceDurableNonce, hbpre, hbad, voidRace, voidSettlement]
  · simp [waitForDurableNonceTransactionConfirmation, raceStrategies,
      getSpecificStrategiesForRaceDurableNonce, hbpre, hbad, voidRace]

/-- A durable-nonce wait config whose transaction has no instructions at
all, violating the positional contract. -/
def exampleBadDurableConfig : WaitForDurableNonceTransactionConfirmationConfig :=
  { exampleDurableConfig with
      transaction := { exampleNonceTransaction with instructions := [] } }

/-- Witness for C10: a well-formed transaction derives its strategy; an
instruction-less transaction makes the call fail with a `TypeError` and no
factory invocation. -/
theorem durable_nonce_positional_access_unguarded_witness :
    (∃ invs ps, getSpecificStrategiesForRaceDurableNonce
        { exampleDurableConfig with
            abortSignal := internalSignalDuringRace exampleDurableConfig.abortSignal }
        = .ok (invs, ps)) ∧
    (waitForDurableNonceTransactionConfirmation exampleBadDurableConfig).result
        = some (.rejected .typeError) ∧
    (waitForDurableNonceTransactionConfirmation exampleBadDurableConfig).invocations = [] :=
  durable_nonce_positional_access_unguarded exampleDurableConfig exampleBadDurableConfig
    { address := "nonceAcct" } rfl rfl rfl
